import Mathlib

/-!
Verification of the call-session orchestration engine of the voice-booking
server (Twilio / Hume EVI bridge, natural-language date resolver, business
hours gate, booking endpoints).

The embedding works over wall-clock datetimes in the single business time
zone: a `DT` is a civil datetime (year, month, day, hour, minute, second),
which is how every instant in the program is ultimately compared (luxon
DateTime and JS Date values in one fixed zone).  Ordering is lexicographic
on the fields, which agrees with instant order for civil datetimes in one
zone.  Milliseconds are below the resolution at which any modelled branch
distinguishes values and are dropped.
-/

/-- Civil datetime in the business time zone (models luxon DateTime / JS
Date values as used by the server; all code paths compare instants in a
single zone). -/
structure DT where
  year : Int
  month : Nat
  day : Nat
  hour : Nat
  minute : Nat
  second : Nat
  deriving Repr, DecidableEq

/-- Strict order on datetimes: lexicographic on the civil fields, which for
datetimes expressed in one time zone coincides with the numeric order on
epoch milliseconds used by JS `<` / luxon `<`. -/
def dtLtB (a b : DT) : Bool :=
  if a.year ≠ b.year then decide (a.year < b.year)
  else if a.month ≠ b.month then decide (a.month < b.month)
  else if a.day ≠ b.day then decide (a.day < b.day)
  else if a.hour ≠ b.hour then decide (a.hour < b.hour)
  else if a.minute ≠ b.minute then decide (a.minute < b.minute)
  else decide (a.second < b.second)

/-- Non-strict order, as JS `a <= b` on numbers: the negation of `b < a`. -/
def dtLeB (a b : DT) : Bool := !(dtLtB b a)

/-- Is `y` a (Gregorian) leap year. -/
def isLeap (y : Int) : Bool := (y % 4 == 0 && y % 100 != 0) || y % 400 == 0

/-- Number of days in month `m` of year `y`. -/
def daysInMonth (y : Int) (m : Nat) : Nat :=
  if m = 2 then (if isLeap y then 29 else 28)
  else if m = 4 ∨ m = 6 ∨ m = 9 ∨ m = 11 then 30
  else 31

/-- The next calendar day, keeping the time of day (calendar successor used
to model luxon `plus \x7b days \x7d`, which preserves local time). -/
def succDay (d : DT) : DT :=
  if d.day < daysInMonth d.year d.month then { d with day := d.day + 1 }
  else if d.month < 12 then { d with month := d.month + 1, day := 1 }
  else { d with year := d.year + 1, month := 1, day := 1 }

/-- luxon `dt.plus(\x7b days: n \x7d)`: advance `n` calendar days keeping the
local time of day. -/
def plusDays (d : DT) : Nat → DT
  | 0 => d
  | n + 1 => succDay (plusDays d n)

/-- luxon `dt.plus(\x7b minutes: k \x7d)` for the small `k` the server uses:
add `k` minutes, carrying into hours and (at most once) into the next day. -/
def addMinutes (d : DT) (k : Nat) : DT :=
  let t := d.hour * 60 + d.minute + k
  if t < 1440 then { d with hour := t / 60, minute := t % 60 }
  else
    let s := succDay d
    let u := t - 1440
    { s with hour := u / 60, minute := u % 60 }

/-- JS `Date.prototype.setFullYear`: replace the year keeping month and
day-of-month; an out-of-range day (Feb 29 in a non-leap target year)
overflows into the next month, as JS Date normalization does. -/
def setFullYear (d : DT) (y : Int) : DT :=
  let dim := daysInMonth y d.month
  if d.day ≤ dim then { d with year := y }
  else { d with year := y, month := d.month + 1, day := d.day - dim }

/- ---------------------------------------------------------------------
src/services/date-parser.js
--------------------------------------------------------------------- -/

/-- Prefix test on character lists (used to model JS `String.includes`). -/
def isPrefixOfChars : List Char → List Char → Bool
  | [], _ => true
  | _ :: _, [] => false
  | a :: as, b :: bs => a == b && isPrefixOfChars as bs

/-- Infix test on character lists. -/
def isInfixOfChars : List Char → List Char → Bool
  | pat, [] => pat.isEmpty
  | pat, c :: cs => isPrefixOfChars pat (c :: cs) || isInfixOfChars pat cs

/-- JS `s.includes(pat)`. -/
def containsSub (s pat : String) : Bool := isInfixOfChars pat.data s.data

/-- JS `s.toLowerCase()` (ASCII-relevant part). -/
def jsToLower (s : String) : String := String.mk (s.data.map Char.toLower)

/-- date-parser.js `pickDefaultHourByHint`: default hour inferred from
day-part keywords of the lowercased phrase, checked in source order. -/
def pickDefaultHourByHint (text : String) : Option Nat :=
  let t := jsToLower text
  if containsSub t "morning" then some 9
  else if containsSub t "afternoon" then some 14
  else if containsSub t "evening" then some 18
  else none

/-- date-parser.js lines 29-34: when the parse did not yield a certain hour,
apply the hint-derived default hour, zeroing minutes and seconds
(milliseconds are below the model's resolution). -/
def applyDefaultHour (text : String) (hourCertain : Bool) (dt : DT) : DT :=
  if hourCertain then dt
  else
    match pickDefaultHourByHint text with
    | some h => { dt with hour := h, minute := 0, second := 0 }
    | none => dt

/-- date-parser.js `ensureFuture`: the future-safety pass. -/
def ensureFuture (dt now : DT) (weekdayBias : Bool) : DT :=
  if dtLeB dt now then
    let future := if weekdayBias then plusDays dt 7 else plusDays dt 1
    if dtLeB future now then addMinutes now 5 else future
  else dt

/-- One parse result of the external chrono-node grammar, as consumed by
`parseRelativeDateToISO`: the resolved start datetime (already converted to
the business time zone), whether the hour component was certain, and the
value of the weekday component (`r.start.get('weekday')`, chrono encodes
Sunday as 0) when the phrase carried one. -/
structure ChronoResult where
  startDate : DT
  hourCertain : Bool
  weekday : Option Int
  deriving Repr, DecidableEq

/-- JS truthiness of `r.start.get('weekday')` (`!!w`): `undefined` and the
number 0 are falsy. -/
def jsTruthyWeekday : Option Int → Bool
  | none => false
  | some w => w != 0

/-- date-parser.js `parseRelativeDateToISO`, parameterized by the output of
the external chrono parser (`chrono.casual.parse`): empty result list means
`null`; otherwise the first result gets the default-hour pass and the
future-safety pass. -/
def parseRelativeDateToISO (text : String) (results : List ChronoResult) (ref : DT) : Option DT :=
  match results with
  | [] => none
  | r :: _ =>
    let dt := applyDefaultHour text r.hourCertain r.startDate
    let weekdayBias := jsTruthyWeekday r.weekday
    some (ensureFuture dt ref weekdayBias)

/- ---------------------------------------------------------------------
src/unnamed/part_002 (datetime.js): ensureFutureIso
--------------------------------------------------------------------- -/

/-- part_002 `ensureFutureIso`, on an already-parsed input (`new Date(inputIso)`
succeeded) and the wall-clock `now` from `getCurrentDateTimeISO`: if the
candidate's year is earlier than the current year, replace it with the
current year; then, if the candidate is strictly before now, advance the
year by one. -/
def ensureFutureIsoCore (parsed now : DT) : DT :=
  let candidate := if parsed.year < now.year then setFullYear parsed now.year else parsed
  if dtLtB candidate now then setFullYear candidate (candidate.year + 1) else candidate

/-- part_002 `ensureFutureIso` including the unparseable case: an absent or
unparseable input (`!inputIso`, or `new Date` giving NaN) is returned
unchanged, modelled as `none`. -/
def ensureFutureIso (input : Option DT) (now : DT) : Option DT :=
  match input with
  | none => none
  | some p => some (ensureFutureIsoCore p now)

/- ---------------------------------------------------------------------
JS string / number helpers used by the configuration parsers
--------------------------------------------------------------------- -/

/-- Whitespace as JS `trim` treats it (ASCII-relevant part). -/
def isWsChar (c : Char) : Bool := c == ' ' || c == '\t' || c == '\n' || c == '\r'

/-- JS `s.trim()` on character lists. -/
def trimChars (cs : List Char) : List Char :=
  ((cs.dropWhile isWsChar).reverse.dropWhile isWsChar).reverse

/-- JS `s.trim()`. -/
def jsTrim (s : String) : String := String.mk (trimChars s.data)

/-- Split a character list at every occurrence of `sep`, JS
`String.prototype.split` with a single-character separator (an empty
input gives one empty field, like JS). -/
def splitOnChar (sep : Char) : List Char → List (List Char)
  | [] => [[]]
  | c :: cs =>
    let rest := splitOnChar sep cs
    if c == sep then [] :: rest
    else
      match rest with
      | r :: rs => (c :: r) :: rs
      | [] => [[c]]

/-- JS `s.split(sep)` for a one-character separator. -/
def jsSplit (s : String) (sep : Char) : List String :=
  (splitOnChar sep s.data).map String.mk

/-- Value of a nonempty all-digit character list. -/
def digitsVal : List Char → Option Nat
  | [] => none
  | cs => if cs.all Char.isDigit then some (cs.foldl (fun n c => n * 10 + (c.toNat - 48)) 0) else none

/-- Signed decimal integer literal. -/
def readIntChars : List Char → Option Int
  | '-' :: rest => (digitsVal rest).map (fun n => -(n : Int))
  | '+' :: rest => (digitsVal rest).map (fun n => (n : Int))
  | cs => (digitsVal cs).map (fun n => (n : Int))

/-- JS `Number(s)` on the decimal-integer fragment the configuration uses:
whitespace is trimmed, the empty string is 0, a signed integer literal is
its value, anything else is NaN (`none`). -/
def jsNum (s : String) : Option Int :=
  let t := trimChars s.data
  if t.isEmpty then some 0 else readIntChars t

/- ---------------------------------------------------------------------
src/unnamed/part_004: business hours gate
--------------------------------------------------------------------- -/

/-- Days since 1970-01-01 of a civil date (standard civil-from-days
inverse; models what JS Date / Intl arithmetic computes for a wall-clock
date). -/
def daysFromCivil (y : Int) (m d : Nat) : Int :=
  let yy : Int := if m ≤ 2 then y - 1 else y
  let era : Int := Int.fdiv yy 400
  let yoe : Int := yy - era * 400
  let mp : Nat := if 2 < m then m - 3 else m + 9
  let doy : Int := ((153 * mp + 2) / 5 + d : Nat) - 1
  let doe : Int := yoe * 365 + Int.fdiv yoe 4 - Int.fdiv yoe 100 + doy
  era * 146097 + doe - 719468

/-- Weekday of a datetime, 0 = Sunday .. 6 = Saturday (the encoding of
`getPartsForDateInTimezone`; 1970-01-01 was a Thursday). -/
def dayOfWeek (d : DT) : Int := Int.emod (daysFromCivil d.year d.month d.day + 4) 7

/-- Minute of day of a datetime (`hour * 60 + minute` in
`getPartsForDateInTimezone` / `isWithinBusinessHoursAt`). -/
def minutesOfDay (d : DT) : Int := (d.hour : Int) * 60 + (d.minute : Int)

/-- The full week, the fail-open fallback of `parseBusinessDays`. -/
def fullWeekDays : List Int := [0, 1, 2, 3, 4, 5, 6]

/-- Closed integer range used for a `a-b` day specification (the source
iterates from `min` to `max`). -/
def rangeDays (a b : Int) : List Int :=
  (List.range (max a b - min a b + 1).toNat).map (fun i => min a b + i)

/-- part_004 `parseBusinessDays`: a comma-separated list of day numbers or
`a-b` ranges; blank parts and non-numeric parts are skipped; an empty or
absent specification falls back to every day. -/
def parseBusinessDays (spec : String) : List Int :=
  if spec = "" then fullWeekDays
  else
    let parts := jsSplit spec ','
    let days := parts.foldl (fun acc part =>
      let p := jsTrim part
      if p = "" then acc
      else if containsSub p "-" then
        let pieces := jsSplit p '-'
        match jsNum (pieces.getD 0 ""), jsNum (pieces.getD 1 "") with
        | some a, some b => acc ++ rangeDays a b
        | _, _ => acc
      else
        match jsNum p with
        | some n => acc ++ [n]
        | none => acc) []
    if days = [] then fullWeekDays else days

/-- part_004 `isWithinBusinessHoursAt` lines 161-165: parse the
`HH:MM-HH:MM` window into open/close minute-of-day, substituting 00:00 for
a missing or falsy open part, 23:59 for a missing close part, and 0 /
23 : 59 components for non-numeric pieces. -/
def parseHoursRange (hoursRange : String) : Int × Int :=
  let parts := jsSplit hoursRange '-'
  let openStr := parts.getD 0 ""
  let closeStr := parts.getD 1 ""
  let openStr := if openStr = "" then "00:00" else openStr
  let closeStr := if closeStr = "" then "23:59" else closeStr
  let oparts := jsSplit openStr ':'
  let oh := match oparts.getD 0 "" with | s => jsNum s
  let om := match oparts.get? 1 with | some s => jsNum s | none => none
  let cparts := jsSplit closeStr ':'
  let ch := match cparts.getD 0 "" with | s => jsNum s
  let cm := match cparts.get? 1 with | some s => jsNum s | none => none
  ((oh.getD 0) * 60 + (om.getD 0), (ch.getD 23) * 60 + (cm.getD 59))

/-- part_004 `isWithinBusinessHoursAt`: `none` models an unparseable ISO
string (`new Date` gave NaN → false); otherwise convert the candidate to
(weekday, minute-of-day) in the business zone, require weekday membership,
then require the minute of day to lie in `[openMin, closeMin]` inclusive. -/
def isWithinBusinessHoursAt (candidate : Option DT) (hoursRange daysSpec : String) : Bool :=
  match candidate with
  | none => false
  | some d =>
    let days := parseBusinessDays daysSpec
    if days.contains (dayOfWeek d) then
      let oc := parseHoursRange hoursRange
      decide (oc.1 ≤ minutesOfDay d ∧ minutesOfDay d ≤ oc.2)
    else false

/-- part_004 `businessDaysHuman`. -/
def businessDaysHuman (spec : String) : String :=
  let s := jsTrim spec
  if s = "1-5" then "Mon–Fri"
  else if s = "0-6" then "Sun–Sat"
  else if s = "" then "Mon–Fri"
  else s

/-- The spoken rejection of `/voice/schedule-time` when the requested time
is outside business hours (part_004 line 275). -/
def outsideHoursMsg (hoursRange daysSpec : String) : String :=
  "That time is outside business hours. Please choose a time " ++
    businessDaysHuman daysSpec ++ " between " ++ hoursRange ++ "."

/-- Observable outcome of the scheduling turn of `/voice/schedule-time`
once a datetime is available (part_004 lines 271-287): either the
out-of-hours re-prompt, or a calendar `createEvent` call with the
normalized start and the 30-minute default duration. -/
inductive ScheduleOutcome where
  | outsideHours (message : String)
  | createEvent (startISO : Option DT) (durationMinutes : Nat)
  deriving Repr, DecidableEq

/-- part_004 `/voice/schedule-time`, lines 271-287: normalize the intent's
datetime with `ensureFutureIso`, gate it with `isWithinBusinessHoursAt`,
and only call the calendar client when the gate passes. -/
def scheduleTimeBook (datetimeISO : Option DT) (now : DT) (hoursRange daysSpec : String) :
    ScheduleOutcome :=
  let startISO2 := ensureFutureIso datetimeISO now
  if !(isWithinBusinessHoursAt startISO2 hoursRange daysSpec) then
    .outsideHours (outsideHoursMsg hoursRange daysSpec)
  else .createEvent startISO2 30

/- ---------------------------------------------------------------------
src/unnamed/part_004: POST /tools/hume/book-appointment
--------------------------------------------------------------------- -/

/-- Exactly `n` decimal digits. -/
def digitsLen (s : String) (n : Nat) : Bool := s.data.length == n && s.data.all Char.isDigit

/-- Between `lo` and `hi` decimal digits. -/
def digitsLenBetween (s : String) (lo hi : Nat) : Bool :=
  decide (lo ≤ s.data.length) && decide (s.data.length ≤ hi) && s.data.all Char.isDigit

/-- Numeric value of an all-digit string. -/
def natOfDigits (s : String) : Nat :=
  s.data.foldl (fun a c => a * 10 + (c.toNat - 48)) 0

/-- The (year, month, day) triple the endpoint's `parseDate` produces. -/
structure DateParts where
  year : Int
  month : Nat
  day : Nat
  deriving Repr, DecidableEq

/-- The (hour, minute) pair the endpoint's `parseTime` produces (the
Number-based fallback can yield values outside 0-23/0-59, which luxon
`fromObject` later rejects). -/
structure TimeParts where
  hour : Int
  minute : Int
  deriving Repr, DecidableEq

/-- Fragment of luxon `DateTime.fromISO` sufficient for the date fields the
endpoint reads: a calendar-valid `YYYY-MM-DD`, optionally followed by a
`T...` time part (whose contents the model does not re-validate, as only
year/month/day are consumed). -/
def parseIsoDateLight (dStr : String) : Option DateParts :=
  let datePart := (jsSplit dStr 'T').getD 0 ""
  match jsSplit datePart '-' with
  | [ys, ms, ds] =>
    if digitsLen ys 4 && digitsLen ms 2 && digitsLen ds 2 then
      let y : Int := natOfDigits ys
      let m := natOfDigits ms
      let d := natOfDigits ds
      if 1 ≤ m ∧ m ≤ 12 ∧ 1 ≤ d ∧ d ≤ daysInMonth y m then some ⟨y, m, d⟩ else none
    else none
  | _ => none

/-- part_004 `parseDate` (lines 541-555): first the `^\d\x7b4\x7d-\d\x7b2\x7d-\d\x7b2\x7d$`
regex branch (split on `-` and `Number` each piece, with no calendar
validation), then luxon `M/d/yyyy`, then `M/d` with the current year, then
an ISO parse; a shape that matches a luxon format but is calendar-invalid
makes every remaining branch fail, so the whole parse yields `none`. -/
def parseDateStr (dStr : String) (nowYear : Int) : Option DateParts :=
  let parts := jsSplit dStr '-'
  if parts.length = 3 ∧ digitsLen (parts.getD 0 "") 4 = true ∧
      digitsLen (parts.getD 1 "") 2 = true ∧ digitsLen (parts.getD 2 "") 2 = true then
    some ⟨(natOfDigits (parts.getD 0 "") : Int), natOfDigits (parts.getD 1 ""),
      natOfDigits (parts.getD 2 "")⟩
  else
    match jsSplit dStr '/' with
    | [ms, ds, ys] =>
      if digitsLenBetween ms 1 2 && digitsLenBetween ds 1 2 && digitsLen ys 4 then
        let m := natOfDigits ms
        let d := natOfDigits ds
        let y : Int := natOfDigits ys
        if 1 ≤ m ∧ m ≤ 12 ∧ 1 ≤ d ∧ d ≤ daysInMonth y m then some ⟨y, m, d⟩ else none
      else none
    | [ms, ds] =>
      if digitsLenBetween ms 1 2 && digitsLenBetween ds 1 2 then
        let m := natOfDigits ms
        let d := natOfDigits ds
        if 1 ≤ m ∧ m ≤ 12 ∧ 1 ≤ d ∧ d ≤ daysInMonth nowYear m then some ⟨nowYear, m, d⟩
        else none
      else none
    | _ => parseIsoDateLight dStr

/-- 12-hour to 24-hour conversion for luxon meridiem formats. -/
def meridiemHour (h : Nat) (ap : String) : Nat :=
  if ap = "am" then (if h = 12 then 0 else h) else (if h = 12 then 12 else h + 12)

/-- luxon format `H:mm`. -/
def timeFormatHmm (t : String) : Option TimeParts :=
  match jsSplit t ':' with
  | [hs, ms] =>
    if digitsLenBetween hs 1 2 && digitsLen ms 2 then
      let h := natOfDigits hs
      let m := natOfDigits ms
      if h ≤ 23 ∧ m ≤ 59 then some ⟨h, m⟩ else none
    else none
  | _ => none

/-- luxon format `h:mm a` (input already lowercased). -/
def timeFormatHmmA (t : String) : Option TimeParts :=
  match jsSplit t ' ' with
  | [hm, ap] =>
    if ap = "am" ∨ ap = "pm" then
      match jsSplit hm ':' with
      | [hs, ms] =>
        if digitsLenBetween hs 1 2 && digitsLen ms 2 then
          let h := natOfDigits hs
          let m := natOfDigits ms
          if 1 ≤ h ∧ h ≤ 12 ∧ m ≤ 59 then some ⟨meridiemHour h ap, m⟩ else none
        else none
      | _ => none
    else none
  | _ => none

/-- luxon format `h a` (input already lowercased). -/
def timeFormatHA (t : String) : Option TimeParts :=
  match jsSplit t ' ' with
  | [hs, ap] =>
    if ap = "am" ∨ ap = "pm" then
      if digitsLenBetween hs 1 2 then
        let h := natOfDigits hs
        if 1 ≤ h ∧ h ≤ 12 then some ⟨meridiemHour h ap, 0⟩ else none
      else none
    else none
  | _ => none

/-- luxon format `H` (bare hour). -/
def timeFormatH (t : String) : Option TimeParts :=
  if digitsLenBetween t 1 2 then
    let h := natOfDigits t
    if h ≤ 23 then some ⟨h, 0⟩ else none
  else none

/-- part_004 `parseTime` fallback (lines 564-566): split on `:` and take
`Number` of the pieces; a non-numeric hour is a parse failure, a missing or
non-numeric minute becomes 0. -/
def timeFallbackSplit (tStr : String) : Option TimeParts :=
  match jsNum ((jsSplit tStr ':').getD 0 "") with
  | some hh => some ⟨hh, (((jsSplit tStr ':').get? 1).bind jsNum).getD 0⟩
  | none => none

/-- part_004 `parseTime` (lines 557-568): try the luxon formats `H:mm`,
`h:mm a`, `h a`, `H` on the trimmed lowercased string, then the
`split(':')` fallback on the original string. -/
def parseTimeStr (tStr : String) : Option TimeParts :=
  let t := jsToLower (jsTrim tStr)
  (timeFormatHmm t) <|> (timeFormatHmmA t) <|> (timeFormatHA t) <|> (timeFormatH t) <|>
    timeFallbackSplit tStr

/-- luxon `DateTime.fromObject` with the endpoint's parts (seconds and
milliseconds zeroed): a calendar- or clock-invalid combination gives an
Invalid DateTime, modelled as `none`. -/
def fromObjectDT (dp : DateParts) (tp : TimeParts) : Option DT :=
  if 1 ≤ dp.month ∧ dp.month ≤ 12 ∧ 1 ≤ dp.day ∧ dp.day ≤ daysInMonth dp.year dp.month ∧
      0 ≤ tp.hour ∧ tp.hour ≤ 23 ∧ 0 ≤ tp.minute ∧ tp.minute ≤ 59 then
    some ⟨dp.year, dp.month, dp.day, tp.hour.toNat, tp.minute.toNat, 0⟩
  else none

/-- luxon `<=` lifted to possibly-invalid DateTimes: any comparison with an
Invalid DateTime is false (NaN semantics). -/
def optLeB : Option DT → Option DT → Bool
  | some a, some b => dtLeB a b
  | _, _ => false

/-- part_004 lines 580-582: build the start and end DateTimes from the
parsed parts and roll the end forward one day when `endDt <= startDt`. -/
def computeEventTimes (dParts : DateParts) (sParts eParts : TimeParts) : Option DT × Option DT :=
  let startDt := fromObjectDT dParts sParts
  let endDt0 := fromObjectDT dParts eParts
  let endDt := if optLeB endDt0 startDt then endDt0.map (fun e => plusDays e 1) else endDt0
  (startDt, endDt)

/-- JS `String(v || dflt)` for an optional string field: `undefined` and
the empty string are falsy. -/
def jsStringOr (v : Option String) (dflt : String) : String :=
  match v with
  | none => dflt
  | some s => if s = "" then dflt else s

/-- JSON body of the book-appointment tool endpoint. -/
structure BookBody where
  calendarId : Option String := none
  date : Option String := none
  startTime : Option String := none
  endTime : Option String := none
  timezone : Option String := none
  summary : Option String := none
  description : Option String := none
  attendees : Option (List String) := none
  deriving Repr, DecidableEq

/-- Observable outcome of `POST /tools/hume/book-appointment` up to the
external Google-Calendar call: a 400 response, or the calendar-insert
request the endpoint issues (`created` means `calendar.events.insert` is
invoked with these arguments; its success or failure is upstream). -/
inductive BookOutcome where
  | badRequest (error : String)
  | created (calendarId : String) (startDt endDt : Option DT) (summary description : String)
      (attendees : List String)
  deriving Repr, DecidableEq

/-- part_004 `POST /tools/hume/book-appointment` (lines 516-609), up to the
calendar call: defaults and trimming of the body fields, the
missing-required-parameter 400, `parseDate` / `parseTime`, the invalid-
format 400, and the start/end construction with the midnight rollover.
`nowYear` is the current year in the business zone, used by the `M/D`
date format.  No business-hours check appears on this path. -/
def bookAppointment (body : BookBody) (nowYear : Int) : BookOutcome :=
  let calendarId := jsTrim (jsStringOr body.calendarId "primary")
  let date := jsTrim (jsStringOr body.date "")
  let startTime := jsTrim (jsStringOr body.startTime "")
  let endTime := jsTrim (jsStringOr body.endTime "")
  let summary := jsStringOr body.summary "Call with our office"
  let description := jsStringOr body.description "Booked via Hume tool book_appointment"
  let attendees := body.attendees.getD []
  if date = "" ∨ startTime = "" ∨ endTime = "" then
    .badRequest "date, startTime, endTime required"
  else
    match parseDateStr date nowYear, parseTimeStr startTime, parseTimeStr endTime with
    | some dParts, some sParts, some eParts =>
      let se := computeEventTimes dParts sParts eParts
      .created calendarId se.1 se.2 summary description attendees
    | _, _, _ => .badRequest "Invalid date or time format"

/- ---------------------------------------------------------------------
JSON values and JSON.parse (for the tool-call handler)
--------------------------------------------------------------------- -/

/-- JSON values.  Numbers keep their source text (the handler never does
arithmetic on them). -/
inductive JVal where
  | jnull
  | jbool (b : Bool)
  | jnum (raw : String)
  | jstr (s : String)
  | jarr (xs : List JVal)
  | jobj (fields : List (String × JVal))
  deriving Repr, Inhabited

/-- JSON whitespace skip. -/
def skipWs : List Char → List Char
  | c :: cs => if c == ' ' || c == '\t' || c == '\n' || c == '\r' then skipWs cs else c :: cs
  | [] => []

/-- Read a JSON string body after the opening quote, handling the escape
sequences the grammar allows (\u escapes are folded to their code point,
ignoring surrogate pairing, which no modelled input exercises). -/
def readJString (fuel : Nat) (cs : List Char) : Option (String × List Char) :=
  match fuel with
  | 0 => none
  | fuel + 1 =>
    match cs with
    | [] => none
    | '"' :: rest => some ("", rest)
    | '\\' :: e :: rest =>
      let cont (c : Char) (rs : List Char) : Option (String × List Char) :=
        (readJString fuel rs).map (fun p => (String.mk (c :: p.1.data), p.2))
      match e with
      | '"' => cont '"' rest
      | '\\' => cont '\\' rest
      | '/' => cont '/' rest
      | 'n' => cont '\n' rest
      | 't' => cont '\t' rest
      | 'r' => cont '\r' rest
      | 'b' => cont (Char.ofNat 8) rest
      | 'f' => cont (Char.ofNat 12) rest
      | 'u' =>
        match rest with
        | a :: b :: c :: d :: rs =>
          if [a, b, c, d].all (fun x => x.isDigit || ('a' ≤ x ∧ x ≤ 'f') || ('A' ≤ x ∧ x ≤ 'F')) then
            let hexVal (x : Char) : Nat :=
              if x.isDigit then x.toNat - 48
              else if 'a' ≤ x ∧ x ≤ 'f' then x.toNat - 87 else x.toNat - 55
            cont (Char.ofNat (((hexVal a * 16 + hexVal b) * 16 + hexVal c) * 16 + hexVal d)) rs
          else none
        | _ => none
      | _ => none
    | c :: rest => (readJString fuel rest).map (fun p => (String.mk (c :: p.1.data), p.2))

/-- Read a JSON number (optional minus, integer part, optional fraction and
exponent), returning its source text. -/
def readJNumber (cs : List Char) : Option (String × List Char) :=
  let readDigits (l : List Char) : List Char × List Char :=
    (l.takeWhile Char.isDigit, l.dropWhile Char.isDigit)
  let (neg, afterSign) := match cs with
    | '-' :: rest => ([('-' : Char)], rest)
    | _ => ([], cs)
  let (intPart, afterInt) := readDigits afterSign
  if intPart.isEmpty then none
  else
    let (fracPart, afterFrac) :=
      match afterInt with
      | '.' :: rest =>
        let (ds, rs) := readDigits rest
        if ds.isEmpty then ([], afterInt) else (('.' : Char) :: ds, rs)
      | _ => ([], afterInt)
    let (expPart, afterExp) :=
      match afterFrac with
      | e :: rest =>
        if e == 'e' || e == 'E' then
          match rest with
          | s :: rest2 =>
            if s == '+' || s == '-' then
              let (ds, rs) := readDigits rest2
              if ds.isEmpty then ([], afterFrac) else (e :: s :: ds, rs)
            else
              let (ds, rs) := readDigits rest
              if ds.isEmpty then ([], afterFrac) else (e :: ds, rs)
          | [] => ([], afterFrac)
        else ([], afterFrac)
      | [] => ([], afterFrac)
    some (String.mk (neg ++ intPart ++ fracPart ++ expPart), afterExp)

/-- The opening brace character. -/
def lbraceChar : Char := Char.ofNat 123

/-- The closing brace character. -/
def rbraceChar : Char := Char.ofNat 125

mutual

/-- One JSON value (fuel-bounded recursive-descent on the character list). -/
def parseJVal : Nat → List Char → Option (JVal × List Char)
  | 0, _ => none
  | fuel + 1, cs =>
    match skipWs cs with
    | 'n' :: 'u' :: 'l' :: 'l' :: rest => some (.jnull, rest)
    | 't' :: 'r' :: 'u' :: 'e' :: rest => some (.jbool true, rest)
    | 'f' :: 'a' :: 'l' :: 's' :: 'e' :: rest => some (.jbool false, rest)
    | '"' :: rest => (readJString (rest.length + 1) rest).map (fun p => (.jstr p.1, p.2))
    | '[' :: rest =>
      (match skipWs rest with
       | ']' :: rest2 => some (.jarr [], rest2)
       | _ => (parseJItems fuel rest).map (fun p => (.jarr p.1, p.2)))
    | c :: rest =>
      if c == lbraceChar then
        (match skipWs rest with
         | c2 :: rest2 =>
           if c2 == rbraceChar then some (.jobj [], rest2)
           else (parseJFields fuel rest).map (fun p => (.jobj p.1, p.2))
         | [] => (parseJFields fuel rest).map (fun p => (.jobj p.1, p.2)))
      else (readJNumber (c :: rest)).map (fun p => (.jnum p.1, p.2))
    | [] => none

/-- Comma-separated array elements up to the closing bracket. -/
def parseJItems : Nat → List Char → Option (List JVal × List Char)
  | 0, _ => none
  | fuel + 1, cs =>
    match parseJVal fuel cs with
    | none => none
    | some (v, rest) =>
      match skipWs rest with
      | ',' :: rest2 => (parseJItems fuel rest2).map (fun p => (v :: p.1, p.2))
      | ']' :: rest2 => some ([v], rest2)
      | _ => none

/-- Comma-separated object members up to the closing brace. -/
def parseJFields : Nat → List Char → Option (List (String × JVal) × List Char)
  | 0, _ => none
  | fuel + 1, cs =>
    match skipWs cs with
    | '"' :: rest =>
      match readJString (rest.length + 1) rest with
      | none => none
      | some (key, rest2) =>
        match skipWs rest2 with
        | ':' :: rest3 =>
          match parseJVal fuel rest3 with
          | none => none
          | some (v, rest4) =>
            match skipWs rest4 with
            | c5 :: rest5 =>
              if c5 == ',' then (parseJFields fuel rest5).map (fun p => ((key, v) :: p.1, p.2))
              else if c5 == rbraceChar then some ([(key, v)], rest5)
              else none
            | [] => none
        | _ => none
    | _ => none

end

/-- JS `JSON.parse`: parse one value and require only whitespace after it;
any failure throws (`none`). -/
def parseJson (s : String) : Option JVal :=
  match parseJVal (2 * s.data.length + 2) s.data with
  | some (v, rest) => if (skipWs rest).isEmpty then some v else none
  | none => none

/- ---------------------------------------------------------------------
src/services/hume-tool-handler.js
--------------------------------------------------------------------- -/

/-- The Hume ToolCall message as the handler reads it: every field may be
absent. -/
structure ToolMsg where
  name : Option String := none
  tool_name : Option String := none
  toolCallId : Option String := none
  tool_call_id : Option String := none
  parameters : Option String := none
  args : Option String := none
  deriving Repr, DecidableEq

/-- JS truthiness of an optional string: `undefined` and `""` are falsy. -/
def jsTruthyOptS : Option String → Bool
  | none => false
  | some s => s ≠ ""

/-- JS `a || b` on optional strings (value semantics: `b` is returned
whenever `a` is falsy). -/
def jsOrOptS (a b : Option String) : Option String := if jsTruthyOptS a then a else b

/-- Line 21: `toolCallMessage?.name || toolCallMessage?.tool_name || ''`. -/
def resolvedToolName (m : ToolMsg) : String :=
  match jsOrOptS (jsOrOptS m.name m.tool_name) (some "") with
  | some s => s
  | none => ""

/-- Line 22: `toolCallMessage?.toolCallId || toolCallMessage?.tool_call_id`. -/
def resolvedToolCallId (m : ToolMsg) : Option String := jsOrOptS m.toolCallId m.tool_call_id

/-- Line 23: `toolCallMessage?.parameters || toolCallMessage?.args || '\x7b\x7d'`. -/
def resolvedParams (m : ToolMsg) : String :=
  match jsOrOptS (jsOrOptS m.parameters m.args) (some "\x7b\x7d") with
  | some s => s
  | none => "\x7b\x7d"

/-- Result of the `fetch` to the local bridge endpoint: either the network
call itself fails (the promise rejects, landing in the outer catch), or an
HTTP response with a status and a body. -/
inductive BridgeResult where
  | netError (message : String)
  | httpResponse (status : Nat) (body : String)
  deriving Repr, DecidableEq

/-- `Response.ok`: status in the 2xx range. -/
def respOk (status : Nat) : Bool := decide (200 ≤ status) && decide (status < 300)

/-- A reply written to the agent socket: the single `tool_response` or
`tool_error` the handler sends (the `tool_response` content is the JSON
value the handler serializes). -/
inductive ToolReply where
  | toolResponse (toolCallId : Option String) (content : JVal)
  | toolError (toolCallId : Option String) (error : String) (content : String)
      (fallbackContent : Option String)
  deriving Repr, Inhabited

/-- Externally visible actions of one `handleToolCallMessage` run, in
order: the HTTP POST to the bridge endpoint (with the re-serialized
parameters) and the replies sent on the socket. -/
inductive HandlerEffect where
  | fetchBookAppointment (params : JVal)
  | sendReply (r : ToolReply)
  deriving Repr, Inhabited

/-- JS truthiness of a parsed JSON value (numbers are truthy unless they
denote zero; the modelled zero spellings cover the source texts JSON.parse
can produce for 0). -/
def jvTruthy : JVal → Bool
  | .jnull => false
  | .jbool b => b
  | .jnum raw => !(raw = "0" || raw = "-0" || raw = "0.0")
  | .jstr s => s ≠ ""
  | .jarr _ => true
  | .jobj _ => true

/-- Last-wins field lookup on a JSON object (JS object semantics for
duplicate keys in a parsed literal). -/
def lookupField (fields : List (String × JVal)) (key : String) : Option JVal :=
  fields.foldl (fun acc f => if f.1 = key then some f.2 else acc) none

/-- Line 74: `data?.event || data`. -/
def jsonEventOr (data : JVal) : JVal :=
  match data with
  | .jobj fs =>
    match lookupField fs "event" with
    | some v => if jvTruthy v then v else data
    | none => data
  | _ => data

/-- JS `text.slice(0, 500) || 'Error creating event'`. -/
def bridgeErrorContent (body : String) : String :=
  let t := String.mk (body.data.take 500)
  if t = "" then "Error creating event" else t

/-- hume-tool-handler.js `handleToolCallMessage`, as the ordered list of
its externally visible actions, given the tool-call message and the
behaviour of the bridge endpoint.  Branches, in source order: unsupported
tool name; parameters that fail `JSON.parse`; the POST whose promise
rejects (caught by the outer catch); a non-2xx response; a 2xx response
whose body fails `resp.json()` (also caught by the outer catch); and the
success path.  The socket wrapper installed by the bridge always provides
both send methods, so every branch sends its reply. -/
def handleToolCallMessage (m : ToolMsg) (bridge : BridgeResult) : List HandlerEffect :=
  let toolCallId := resolvedToolCallId m
  if resolvedToolName m ≠ "book_appointment" then
    [.sendReply (.toolError toolCallId "Tool not found"
      "The requested tool is not supported by this server" none)]
  else
    match parseJson (resolvedParams m) with
    | none =>
      [.sendReply (.toolError toolCallId "Malformed parameters"
        "Parameters were not valid JSON" none)]
    | some params =>
      .fetchBookAppointment params ::
        match bridge with
        | .netError msg =>
          [.sendReply (.toolError toolCallId "Unhandled tool error" msg
            (some "Something went wrong while booking. Want to try a different time?"))]
        | .httpResponse status body =>
          if respOk status = false then
            [.sendReply (.toolError toolCallId ("Bridge error " ++ toString status)
              (bridgeErrorContent body)
              (some "I could not book that time. Would you like to try another time?"))]
          else
            match parseJson body with
            | none =>
              [.sendReply (.toolError toolCallId "Unhandled tool error"
                "Unexpected token in JSON"
                (some "Something went wrong while booking. Want to try a different time?"))]
            | some data => [.sendReply (.toolResponse toolCallId (jsonEventOr data))]

/-- Is this effect a reply on the socket. -/
def isReplyEffect : HandlerEffect → Bool
  | .sendReply _ => true
  | .fetchBookAppointment _ => false

/-- Is this effect the HTTP POST to the booking endpoint. -/
def isFetchEffect : HandlerEffect → Bool
  | .fetchBookAppointment _ => true
  | .sendReply _ => false

/- ---------------------------------------------------------------------
src/services/twilio-hume-bridge.js: the Twilio → Hume pump
--------------------------------------------------------------------- -/

/-- A message on the Twilio media-stream socket, as the bridge
discriminates it. -/
inductive TwilioEvent where
  | media (payload : String)
  | start
  | stop
  | other
  deriving Repr, DecidableEq

/-- An input to the bridge's Twilio-to-Hume direction: the Hume socket's
`open` event (which sets `humeReady`), or a Twilio message. -/
inductive BridgeIn where
  | humeOpen
  | twilio (e : TwilioEvent)
  deriving Repr, DecidableEq

/-- An output of that direction: an `audio_input` send to Hume, or the
`humeSocket.close()` triggered by a Twilio `stop`. -/
inductive BridgeOut where
  | audioInput (payload : String)
  | humeClose
  deriving Repr, DecidableEq

/-- One step of the bridge (lines 37-64): state is the `humeReady` flag,
set on `open` and never cleared; a `media` frame is forwarded only when the
flag is set and is otherwise dropped (no buffering); `stop` closes the Hume
socket; `start` and unknown events only log. -/
def bridgeStep (ready : Bool) : BridgeIn → Bool × List BridgeOut
  | .humeOpen => (true, [])
  | .twilio (.media p) => (ready, if ready then [.audioInput p] else [])
  | .twilio .start => (ready, [])
  | .twilio .stop => (ready, [.humeClose])
  | .twilio .other => (ready, [])

/-- Run the bridge over a sequence of inputs, concatenating the outputs in
arrival order. -/
def bridgeRun (ready : Bool) : List BridgeIn → List BridgeOut
  | [] => []
  | e :: es =>
    let s := bridgeStep ready e
    s.2 ++ bridgeRun s.1 es

/- ---------------------------------------------------------------------
Order lemmas for the datetime model
--------------------------------------------------------------------- -/

theorem dtLtB_of_date_lt (a b : DT)
    (h : a.year < b.year ∨ (a.year = b.year ∧
      (a.month < b.month ∨ (a.month = b.month ∧ a.day < b.day)))) :
    dtLtB a b = true := by
  unfold dtLtB
  split_ifs <;> simp_all

theorem succDay_date_lt (d : DT) :
    d.year < (succDay d).year ∨ (d.year = (succDay d).year ∧
      (d.month < (succDay d).month ∨ (d.month = (succDay d).month ∧ d.day < (succDay d).day))) := by
  unfold succDay
  split_ifs <;> simp

theorem dtLtB_of_time_lt (a b : DT) (hy : a.year = b.year) (hm : a.month = b.month)
    (hd : a.day = b.day) (hb : b.minute < 60)
    (h : a.hour * 60 + a.minute < b.hour * 60 + b.minute) : dtLtB a b = true := by
  unfold dtLtB
  split_ifs <;> simp_all
  all_goals omega

theorem dtLtB_addMinutes (d : DT) (k : Nat) (hk : 0 < k) : dtLtB d (addMinutes d k) = true := by
  unfold addMinutes
  simp only
  split
  · apply dtLtB_of_time_lt <;> simp <;> omega
  · exact dtLtB_of_date_lt _ _ (succDay_date_lt d)

theorem dtLtB_of_not_leB (a b : DT) (h : dtLeB a b = false) : dtLtB b a = true := by
  simpa [dtLeB] using h

theorem dtLeB_of_not_ltB (a b : DT) (h : dtLtB a b = false) : dtLeB b a = true := by
  simp [dtLeB, h]

theorem dtLtB_false_of_year_lt (a b : DT) (h : b.year < a.year) : dtLtB a b = false := by
  unfold dtLtB
  split_ifs <;> simp_all
  all_goals omega

theorem dtLtB_year_le (a b : DT) (h : dtLtB a b = true) : a.year ≤ b.year := by
  unfold dtLtB at h
  split_ifs at h <;> simp_all
  all_goals omega

theorem setFullYear_year (d : DT) (y : Int) : (setFullYear d y).year = y := by
  by_cases h : d.day ≤ daysInMonth y d.month <;> simp [setFullYear, h]

/-- The future-safety pass always lands strictly after the reference. -/
theorem ensureFuture_gt (dt now : DT) (b : Bool) : dtLtB now (ensureFuture dt now b) = true := by
  unfold ensureFuture
  by_cases h1 : dtLeB dt now = true
  · simp only [h1, if_true]
    by_cases h2 : dtLeB (if b then plusDays dt 7 else plusDays dt 1) now = true
    · rw [if_pos h2]
      exact dtLtB_addMinutes now 5 (by omega)
    · rw [if_neg h2]
      have h2f : dtLeB (if b then plusDays dt 7 else plusDays dt 1) now = false := by
        simpa using h2
      exact dtLtB_of_not_leB _ _ h2f
  · rw [if_neg h1]
    have h1f : dtLeB dt now = false := by simpa using h1
    exact dtLtB_of_not_leB _ _ h1f

/-- The explicit-timestamp pass never moves the result before `now`, but
only guarantees a non-strict bound. -/
theorem ensureFutureIsoCore_ge (parsed now : DT) :
    dtLeB now (ensureFutureIsoCore parsed now) = true := by
  unfold ensureFutureIsoCore
  simp only
  by_cases h1 : parsed.year < now.year
  · rw [if_pos h1]
    by_cases h2 : dtLtB (setFullYear parsed now.year) now = true
    · rw [if_pos h2]
      apply dtLeB_of_not_ltB
      apply dtLtB_false_of_year_lt
      rw [setFullYear_year, setFullYear_year]
      omega
    · rw [if_neg h2]
      apply dtLeB_of_not_ltB
      simpa using h2
  · rw [if_neg h1]
    by_cases h2 : dtLtB parsed now = true
    · rw [if_pos h2]
      apply dtLeB_of_not_ltB
      apply dtLtB_false_of_year_lt
      rw [setFullYear_year]
      have := dtLtB_year_le parsed now h2
      omega
    · rw [if_neg h2]
      apply dtLeB_of_not_ltB
      simpa using h2

/-- When the input year is behind the reference year, the output year is at
least the reference year. -/
theorem ensureFutureIsoCore_year_ge (parsed now : DT) (h : parsed.year < now.year) :
    now.year ≤ (ensureFutureIsoCore parsed now).year := by
  unfold ensureFutureIsoCore
  simp only [if_pos h]
  by_cases h2 : dtLtB (setFullYear parsed now.year) now = true
  · rw [if_pos h2, setFullYear_year, setFullYear_year]
    omega
  · rw [if_neg h2, setFullYear_year]

/- ---------------------------------------------------------------------
Claim C1: strict-future guarantee of the DateTime Resolver
--------------------------------------------------------------------- -/

/-- C1 (amended): whenever `parseRelativeDateToISO` returns a timestamp it
is strictly after the reference instant; the explicit-timestamp
normalization `ensureFutureIso`, however, only guarantees the result is not
before the current instant (equality with now is possible), so the strict
bound does not extend to that path. -/
theorem c1_resolver_strict_future :
    (∀ (text : String) (results : List ChronoResult) (ref out : DT),
        parseRelativeDateToISO text results ref = some out → dtLtB ref out = true) ∧
    (∀ (parsed now : DT), dtLeB now (ensureFutureIsoCore parsed now) = true) := by
  constructor
  · intro text results ref out h
    cases results with
    | nil => simp [parseRelativeDateToISO] at h
    | cons r rs =>
      have heq : ensureFuture (applyDefaultHour text r.hourCertain r.startDate) ref
          (jsTruthyWeekday r.weekday) = out := by
        simpa [parseRelativeDateToISO] using h
      rw [← heq]
      exact ensureFuture_gt _ _ _
  · exact ensureFutureIsoCore_ge

/-- C1 witness: a concrete resolver run ("tomorrow at 3pm" from a Tuesday
morning reference) lands strictly after the reference. -/
theorem c1_witness : dtLtB ⟨2025, 6, 10, 10, 0, 0⟩ ⟨2025, 6, 11, 15, 0, 0⟩ = true :=
  c1_resolver_strict_future.1 "tomorrow at 3pm" [⟨⟨2025, 6, 11, 15, 0, 0⟩, true, none⟩]
    ⟨2025, 6, 10, 10, 0, 0⟩ ⟨2025, 6, 11, 15, 0, 0⟩ (by decide)

/-- C1 counterexample: on the explicit-timestamp path, an input equal to
the current instant is returned unchanged (`candidate < now` is false at
equality), so the produced bookable timestamp is not strictly after the
reference instant, refuting the claim for that code path. -/
theorem c1_counterexample :
    ensureFutureIso (some ⟨2025, 6, 10, 10, 0, 0⟩) ⟨2025, 6, 10, 10, 0, 0⟩ =
      some ⟨2025, 6, 10, 10, 0, 0⟩ ∧
    dtLtB ⟨2025, 6, 10, 10, 0, 0⟩ ⟨2025, 6, 10, 10, 0, 0⟩ = false := by decide

/- ---------------------------------------------------------------------
Claim C4: year-safety pass
--------------------------------------------------------------------- -/

/-- C4 (amended): for a parseable timestamp whose year is strictly less
than the reference year, the year-safety pass replaces the year with the
reference year, advances the year by one only when the candidate is then
strictly before the reference instant, and produces an output whose year is
the reference year or later and which is at or after (not necessarily
strictly after) the reference instant. -/
theorem c4_year_safety (parsed now : DT) (h : parsed.year < now.year) :
    ensureFutureIsoCore parsed now =
      (if dtLtB (setFullYear parsed now.year) now then
        setFullYear (setFullYear parsed now.year) ((setFullYear parsed now.year).year + 1)
      else setFullYear parsed now.year) ∧
    now.year ≤ (ensureFutureIsoCore parsed now).year ∧
    dtLeB now (ensureFutureIsoCore parsed now) = true := by
  refine ⟨?_, ensureFutureIsoCore_year_ge parsed now h, ensureFutureIsoCore_ge parsed now⟩
  simp [ensureFutureIsoCore, h]

/-- C4 witness: a stale leap-day timestamp (2020-02-29 12:00 against
reference 2025-06-10 10:00) goes through the year replacement (normalizing
Feb 29 to Mar 1) and the strict-before advance, ending in 2026 and after
the reference. -/
theorem c4_witness :
    (ensureFutureIsoCore ⟨2020, 2, 29, 12, 0, 0⟩ ⟨2025, 6, 10, 10, 0, 0⟩ =
      (if dtLtB (setFullYear ⟨2020, 2, 29, 12, 0, 0⟩ 2025) ⟨2025, 6, 10, 10, 0, 0⟩ then
        setFullYear (setFullYear ⟨2020, 2, 29, 12, 0, 0⟩ 2025)
          ((setFullYear ⟨2020, 2, 29, 12, 0, 0⟩ 2025).year + 1)
      else setFullYear ⟨2020, 2, 29, 12, 0, 0⟩ 2025)) ∧
    (2025 : Int) ≤ (ensureFutureIsoCore ⟨2020, 2, 29, 12, 0, 0⟩ ⟨2025, 6, 10, 10, 0, 0⟩).year ∧
    dtLeB ⟨2025, 6, 10, 10, 0, 0⟩
      (ensureFutureIsoCore ⟨2020, 2, 29, 12, 0, 0⟩ ⟨2025, 6, 10, 10, 0, 0⟩) = true :=
  c4_year_safety ⟨2020, 2, 29, 12, 0, 0⟩ ⟨2025, 6, 10, 10, 0, 0⟩ (by decide)

/-- C4 counterexample: input 2020-06-10 10:00 with reference 2025-06-10
10:00 — after the year replacement the candidate equals the reference (so
it is "at or before" it), yet the year is not advanced (the code tests
strict `<`), and the output equals the reference instead of being strictly
after it. -/
theorem c4_counterexample :
    ensureFutureIsoCore ⟨2020, 6, 10, 10, 0, 0⟩ ⟨2025, 6, 10, 10, 0, 0⟩ =
      ⟨2025, 6, 10, 10, 0, 0⟩ ∧
    dtLeB ⟨2025, 6, 10, 10, 0, 0⟩ ⟨2025, 6, 10, 10, 0, 0⟩ = true ∧
    dtLtB ⟨2025, 6, 10, 10, 0, 0⟩ ⟨2025, 6, 10, 10, 0, 0⟩ = false := by decide

/- ---------------------------------------------------------------------
Claim C5: future-safety pass and the weekday bias
--------------------------------------------------------------------- -/

/-- C5 (amended): when the (hint-adjusted) parsed instant is at or before
the reference, the resolver advances it by 7 days when the chrono weekday
component is present and nonzero (Monday through Saturday; a Sunday
reference, which chrono encodes as weekday 0, is treated as no weekday bias
and advances by 1 day), and otherwise by 1 day; if the advanced instant is
still not after the reference, the result is exactly reference + 5
minutes. -/
theorem c5_future_safety (text : String) (r : ChronoResult) (rest : List ChronoResult) (ref : DT)
    (h : dtLeB (applyDefaultHour text r.hourCertain r.startDate) ref = true) :
    parseRelativeDateToISO text (r :: rest) ref =
      some (if dtLeB (if jsTruthyWeekday r.weekday then
              plusDays (applyDefaultHour text r.hourCertain r.startDate) 7
            else plusDays (applyDefaultHour text r.hourCertain r.startDate) 1) ref then
          addMinutes ref 5
        else (if jsTruthyWeekday r.weekday then
            plusDays (applyDefaultHour text r.hourCertain r.startDate) 7
          else plusDays (applyDefaultHour text r.hourCertain r.startDate) 1)) := by
  simp [parseRelativeDateToISO, ensureFuture, h]

/-- C5 witness: a Tuesday-weekday parse (chrono weekday 2) one day before
the reference gets the 7-day weekday advance. -/
theorem c5_witness :
    parseRelativeDateToISO "z" [⟨⟨2025, 6, 9, 9, 0, 0⟩, true, some 2⟩] ⟨2025, 6, 10, 10, 0, 0⟩ =
      some (if dtLeB (if jsTruthyWeekday (some 2) then
              plusDays (applyDefaultHour "z" true ⟨2025, 6, 9, 9, 0, 0⟩) 7
            else plusDays (applyDefaultHour "z" true ⟨2025, 6, 9, 9, 0, 0⟩) 1)
            ⟨2025, 6, 10, 10, 0, 0⟩ then
          addMinutes ⟨2025, 6, 10, 10, 0, 0⟩ 5
        else (if jsTruthyWeekday (some 2) then
            plusDays (applyDefaultHour "z" true ⟨2025, 6, 9, 9, 0, 0⟩) 7
          else plusDays (applyDefaultHour "z" true ⟨2025, 6, 9, 9, 0, 0⟩) 1)) :=
  c5_future_safety "z" ⟨⟨2025, 6, 9, 9, 0, 0⟩, true, some 2⟩ [] ⟨2025, 6, 10, 10, 0, 0⟩
    (by decide)

/-- C5 counterexample: a phrase referencing Sunday (chrono weekday
component 0, as for "next sunday" resolved to Sunday 2025-06-08, at or
before the Tuesday 2025-06-10 10:00 reference) is NOT advanced by 7 days:
`!!0` is false in JS, so the code advances 1 day and then snaps to
reference + 5 minutes, instead of the claimed 7-day advance to 2025-06-15
09:00. -/
theorem c5_counterexample :
    parseRelativeDateToISO "next sunday" [⟨⟨2025, 6, 8, 9, 0, 0⟩, false, some 0⟩]
      ⟨2025, 6, 10, 10, 0, 0⟩ = some ⟨2025, 6, 10, 10, 5, 0⟩ ∧
    dtLeB ⟨2025, 6, 8, 9, 0, 0⟩ ⟨2025, 6, 10, 10, 0, 0⟩ = true ∧
    plusDays ⟨2025, 6, 8, 9, 0, 0⟩ 7 = ⟨2025, 6, 15, 9, 0, 0⟩ ∧
    (⟨2025, 6, 10, 10, 5, 0⟩ : DT) ≠ ⟨2025, 6, 15, 9, 0, 0⟩ := by decide

/- ---------------------------------------------------------------------
Claim C9: default hour from day-part keywords
--------------------------------------------------------------------- -/

/-- C9 (amended): with no certain hour, the day-part keywords are tested in
the fixed order morning, afternoon, evening, and the first one present
sets the hour (9, 14, 18 respectively) with minutes and seconds zeroed —
so "afternoon" yields 14:00 only when "morning" is absent, and "evening"
yields 18:00 only when both earlier keywords are absent; with none of the
keywords, or with a certain hour, the parser's value is kept. -/
theorem c9_default_hour (text : String) (dt : DT) :
    (applyDefaultHour text true dt = dt) ∧
    (containsSub (jsToLower text) "morning" = true →
      applyDefaultHour text false dt = { dt with hour := 9, minute := 0, second := 0 }) ∧
    (containsSub (jsToLower text) "morning" = false →
      containsSub (jsToLower text) "afternoon" = true →
      applyDefaultHour text false dt = { dt with hour := 14, minute := 0, second := 0 }) ∧
    (containsSub (jsToLower text) "morning" = false →
      containsSub (jsToLower text) "afternoon" = false →
      containsSub (jsToLower text) "evening" = true →
      applyDefaultHour text false dt = { dt with hour := 18, minute := 0, second := 0 }) ∧
    (containsSub (jsToLower text) "morning" = false →
      containsSub (jsToLower text) "afternoon" = false →
      containsSub (jsToLower text) "evening" = false →
      applyDefaultHour text false dt = dt) := by
  refine ⟨rfl, ?_, ?_, ?_, ?_⟩
  · intro h1
    simp [applyDefaultHour, pickDefaultHourByHint, h1]
  · intro h1 h2
    simp [applyDefaultHour, pickDefaultHourByHint, h1, h2]
  · intro h1 h2 h3
    simp [applyDefaultHour, pickDefaultHourByHint, h1, h2, h3]
  · intro h1 h2 h3
    simp [applyDefaultHour, pickDefaultHourByHint, h1, h2, h3]

/-- C9 witness: "tomorrow morning" with an uncertain hour gets 09:00 with
minutes and seconds zeroed. -/
theorem c9_witness :
    applyDefaultHour "tomorrow morning" false ⟨2025, 6, 11, 12, 30, 45⟩ = ⟨2025, 6, 11, 9, 0, 0⟩ :=
  ((c9_default_hour "tomorrow morning" ⟨2025, 6, 11, 12, 30, 45⟩).2.1) (by decide)

/-- C9 counterexample: the phrase "Monday morning or afternoon" contains
"afternoon", but the resolver sets the hour to 9, not 14, because the
"morning" check runs first — refuting the claim that a phrase containing
"afternoon" gets 14:00. -/
theorem c9_counterexample :
    containsSub (jsToLower "Monday morning or afternoon") "afternoon" = true ∧
    applyDefaultHour "Monday morning or afternoon" false ⟨2025, 6, 11, 12, 30, 0⟩ =
      ⟨2025, 6, 11, 9, 0, 0⟩ ∧
    (⟨2025, 6, 11, 9, 0, 0⟩ : DT).hour ≠ 14 := by decide

/- ---------------------------------------------------------------------
Claim C2: business hours gate placement
--------------------------------------------------------------------- -/

/-- C2 (amended): the business-hours gate runs only on the legacy
`/voice/schedule-time` path — there, a normalized start outside the window
yields the out-of-hours outcome with the human-readable window statement
and no calendar call.  The `/tools/hume/book-appointment` endpoint performs
no business-hours check: for date 2025-01-05 (a Sunday) with startTime
07:30 it invokes the calendar client even though that instant is outside
the 09:00-17:00 Mon-Fri window. -/
theorem c2_business_hours_gate :
    (∀ (dtISO : Option DT) (now : DT) (hoursRange daysSpec : String),
        isWithinBusinessHoursAt (ensureFutureIso dtISO now) hoursRange daysSpec = false →
          scheduleTimeBook dtISO now hoursRange daysSpec =
            .outsideHours (outsideHoursMsg hoursRange daysSpec)) ∧
    (bookAppointment
        { date := some "2025-01-05", startTime := some "07:30", endTime := some "09:30" } 2025 =
      .created "primary" (some ⟨2025, 1, 5, 7, 30, 0⟩) (some ⟨2025, 1, 5, 9, 30, 0⟩)
        "Call with our office" "Booked via Hume tool book_appointment" [] ∧
      isWithinBusinessHoursAt (some ⟨2025, 1, 5, 7, 30, 0⟩) "09:00-17:00" "1-5" = false) := by
  refine ⟨?_, by decide, by decide⟩
  intro dtISO now hoursRange daysSpec h
  simp [scheduleTimeBook, h]

/-- C2 witness: a Sunday 07:30 start on the legacy scheduling path is
rejected with the out-of-hours message. -/
theorem c2_witness :
    scheduleTimeBook (some ⟨2025, 1, 5, 7, 30, 0⟩) ⟨2025, 1, 1, 0, 0, 0⟩ "09:00-17:00" "1-5" =
      .outsideHours (outsideHoursMsg "09:00-17:00" "1-5") :=
  c2_business_hours_gate.1 (some ⟨2025, 1, 5, 7, 30, 0⟩) ⟨2025, 1, 1, 0, 0, 0⟩
    "09:00-17:00" "1-5" (by decide)

/-- C2 counterexample: the book-appointment tool endpoint, given the
concrete scenario (date 2025-01-05, startTime 07:30, hours 09:00-17:00
Mon-Fri), does NOT reject with an outside-hours failure: it calls the
calendar client to create the event, although the start instant fails the
business-hours predicate. -/
theorem c2_counterexample :
    bookAppointment
        { date := some "2025-01-05", startTime := some "07:30", endTime := some "09:30" } 2025 =
      .created "primary" (some ⟨2025, 1, 5, 7, 30, 0⟩) (some ⟨2025, 1, 5, 9, 30, 0⟩)
        "Call with our office" "Booked via Hume tool book_appointment" [] ∧
    isWithinBusinessHoursAt (some ⟨2025, 1, 5, 7, 30, 0⟩) "09:00-17:00" "1-5" = false := by
  decide

/- ---------------------------------------------------------------------
Claim C3: exactly one reply per tool-call envelope
--------------------------------------------------------------------- -/

/-- C3: for every tool-call message and every behaviour of the bridge
endpoint, the handler sends exactly one reply on the socket — one
tool_response on success, one tool_error on an unsupported tool, malformed
parameters, HTTP failure, or a rejected fetch / unparseable response body —
never zero and never more than one. -/
theorem c3_exactly_one_reply (m : ToolMsg) (bridge : BridgeResult) :
    (List.filter isReplyEffect (handleToolCallMessage m bridge)).length = 1 := by
  unfold handleToolCallMessage
  by_cases hn : resolvedToolName m = "book_appointment"
  · simp only [hn]
    cases hp : parseJson (resolvedParams m) with
    | none => simp [isReplyEffect]
    | some params =>
      cases bridge with
      | netError msg => simp [isReplyEffect]
      | httpResponse status body =>
        by_cases hok : respOk status = false
        · simp [hok, isReplyEffect]
        · cases hb : parseJson body <;> simp [hok, hb, isReplyEffect]
  · simp [hn, isReplyEffect]

/- ---------------------------------------------------------------------
Claim C7: malformed parameters short-circuit
--------------------------------------------------------------------- -/

/-- C7: when the tool name resolves to book_appointment but the parameters
string is not valid JSON, the handler's only action is a single
"Malformed parameters" tool_error — in particular no HTTP request to the
booking endpoint is made, whatever the bridge would have answered. -/
theorem c7_malformed_parameters (m : ToolMsg) (bridge : BridgeResult)
    (hname : resolvedToolName m = "book_appointment")
    (hparse : parseJson (resolvedParams m) = none) :
    handleToolCallMessage m bridge =
      [.sendReply (.toolError (resolvedToolCallId m) "Malformed parameters"
        "Parameters were not valid JSON" none)] ∧
    ∀ e ∈ handleToolCallMessage m bridge, isFetchEffect e = false := by
  have h1 : handleToolCallMessage m bridge =
      [.sendReply (.toolError (resolvedToolCallId m) "Malformed parameters"
        "Parameters were not valid JSON" none)] := by
    simp [handleToolCallMessage, hname, hparse]
  refine ⟨h1, ?_⟩
  rw [h1]
  intro e he
  simp only [List.mem_singleton] at he
  subst he
  rfl

/-- C7 witness: a book_appointment tool call whose parameters string is
`\x7bnot json` gets exactly the malformed-parameters error reply. -/
theorem c7_witness :
    handleToolCallMessage
        { name := some "book_appointment", toolCallId := some "tc-1",
          parameters := some "\x7bnot json" }
        (.httpResponse 200 "\x7b\x7d") =
      [.sendReply (.toolError (some "tc-1") "Malformed parameters"
        "Parameters were not valid JSON" none)] :=
  (c7_malformed_parameters
    { name := some "book_appointment", toolCallId := some "tc-1",
      parameters := some "\x7bnot json" }
    (.httpResponse 200 "\x7b\x7d") (by rfl) (by rfl)).1

/- ---------------------------------------------------------------------
Claim C6: business-hours boundary inclusivity
--------------------------------------------------------------------- -/

/-- C6: for a policy whose hours string parses to an open/close
minute-of-day window and a candidate instant on an open weekday, the gate
is exactly the inclusive check openMin ≤ minutes ∧ minutes ≤ closeMin; in
particular (for a well-formed window) an instant exactly at the open
minute is open, one minute before it is closed, the close minute itself is
open, and one minute after it is closed. -/
theorem c6_boundary_inclusive (d : DT) (hoursRange daysSpec : String) (o c : Int)
    (hpol : parseHoursRange hoursRange = (o, c))
    (hday : (parseBusinessDays daysSpec).contains (dayOfWeek d) = true) :
    (isWithinBusinessHoursAt (some d) hoursRange daysSpec =
      decide (o ≤ minutesOfDay d ∧ minutesOfDay d ≤ c)) ∧
    (o ≤ c →
      (minutesOfDay d = o → isWithinBusinessHoursAt (some d) hoursRange daysSpec = true) ∧
      (minutesOfDay d + 1 = o → isWithinBusinessHoursAt (some d) hoursRange daysSpec = false) ∧
      (minutesOfDay d = c → isWithinBusinessHoursAt (some d) hoursRange daysSpec = true) ∧
      (minutesOfDay d = c + 1 → isWithinBusinessHoursAt (some d) hoursRange daysSpec = false)) := by
  have hmain : isWithinBusinessHoursAt (some d) hoursRange daysSpec =
      decide (o ≤ minutesOfDay d ∧ minutesOfDay d ≤ c) := by
    simp only [isWithinBusinessHoursAt]
    rw [if_pos hday, hpol]
  refine ⟨hmain, fun hoc => ⟨?_, ?_, ?_, ?_⟩⟩ <;> intro hm <;> rw [hmain] <;> simp <;> omega

/-- C6 witness: Monday 2025-01-06 at exactly 09:00 against the
09:00-17:00 Mon-Fri policy is open. -/
theorem c6_witness :
    isWithinBusinessHoursAt (some ⟨2025, 1, 6, 9, 0, 0⟩) "09:00-17:00" "1-5" = true :=
  (((c6_boundary_inclusive ⟨2025, 1, 6, 9, 0, 0⟩ "09:00-17:00" "1-5" 540 1020
    (by decide) (by decide)).2 (by decide)).1) (by decide)

/- ---------------------------------------------------------------------
Claim C8: end-time midnight rollover
--------------------------------------------------------------------- -/

/-- C8 (amended): with valid start and end DateTimes built from the same
date, the end is rolled forward one day exactly when it is AT OR BEFORE the
start (`endDt <= startDt`; equality also rolls), and is unchanged exactly
when it is strictly after the start. -/
theorem c8_end_rollover (dParts : DateParts) (sParts eParts : TimeParts) (s e : DT)
    (hs : fromObjectDT dParts sParts = some s) (he : fromObjectDT dParts eParts = some e) :
    (dtLeB e s = true → computeEventTimes dParts sParts eParts = (some s, some (plusDays e 1))) ∧
    (dtLeB e s = false → computeEventTimes dParts sParts eParts = (some s, some e)) := by
  constructor <;> intro h <;> simp [computeEventTimes, hs, he, optLeB, h]

/-- C8 witness: a 23:30 start with a 00:15 end on the same date — the end
precedes the start and is rolled forward one day. -/
theorem c8_witness :
    computeEventTimes ⟨2025, 1, 6⟩ ⟨23, 30⟩ ⟨0, 15⟩ =
      (some ⟨2025, 1, 6, 23, 30, 0⟩, some (plusDays ⟨2025, 1, 6, 0, 15, 0⟩ 1)) :=
  (c8_end_rollover ⟨2025, 1, 6⟩ ⟨23, 30⟩ ⟨0, 15⟩ ⟨2025, 1, 6, 23, 30, 0⟩ ⟨2025, 1, 6, 0, 15, 0⟩
    (by decide) (by decide)).1 (by decide)

/-- C8 counterexample: with endTime equal to startTime (09:00-09:00 on
2025-01-06), the end instant does not precede the start, yet the endpoint
still rolls the end date forward one day (the code tests `endDt <=
startDt`), so the end date is not unchanged as the claim requires. -/
theorem c8_counterexample :
    bookAppointment
        { date := some "2025-01-06", startTime := some "09:00", endTime := some "09:00" } 2025 =
      .created "primary" (some ⟨2025, 1, 6, 9, 0, 0⟩) (some ⟨2025, 1, 7, 9, 0, 0⟩)
        "Call with our office" "Booked via Hume tool book_appointment" [] ∧
    dtLtB ⟨2025, 1, 6, 9, 0, 0⟩ ⟨2025, 1, 6, 9, 0, 0⟩ = false ∧
    (⟨2025, 1, 7, 9, 0, 0⟩ : DT) ≠ ⟨2025, 1, 6, 9, 0, 0⟩ := by decide

/- ---------------------------------------------------------------------
Claim C10: media frames before the agent socket opens are dropped
--------------------------------------------------------------------- -/

theorem bridgeRun_append_of_no_open (pre tail : List BridgeIn)
    (h : BridgeIn.humeOpen ∉ pre) :
    bridgeRun false (pre ++ tail) = bridgeRun false pre ++ bridgeRun false tail := by
  induction pre with
  | nil => simp [bridgeRun]
  | cons e es ih =>
    have he : e ≠ BridgeIn.humeOpen := fun hh => h (hh ▸ List.mem_cons_self e es)
    have hes : BridgeIn.humeOpen ∉ es := fun hh => h (List.mem_cons_of_mem e hh)
    cases e with
    | humeOpen => exact absurd rfl he
    | twilio te =>
      cases te <;> simp [bridgeRun, bridgeStep, ih hes]

theorem no_audio_before_open (pre : List BridgeIn) (h : BridgeIn.humeOpen ∉ pre) (q : String) :
    BridgeOut.audioInput q ∉ bridgeRun false pre := by
  induction pre with
  | nil => simp [bridgeRun]
  | cons e es ih =>
    have he : e ≠ BridgeIn.humeOpen := fun hh => h (hh ▸ List.mem_cons_self e es)
    have hes : BridgeIn.humeOpen ∉ es := fun hh => h (List.mem_cons_of_mem e hh)
    cases e with
    | humeOpen => exact absurd rfl he
    | twilio te =>
      cases te <;> simp [bridgeRun, bridgeStep, ih hes]

/-- C10: a Twilio media frame arriving before the Hume socket's open event
contributes nothing to the bridge's output, now or later — the run over the
trace with the early frame equals the run without it (so the frame is
neither forwarded nor buffered nor replayed), and no audio is forwarded at
all while no open event has occurred. -/
theorem c10_media_dropped_before_open (pre rest : List BridgeIn) (p : String)
    (h : BridgeIn.humeOpen ∉ pre) :
    bridgeRun false (pre ++ BridgeIn.twilio (TwilioEvent.media p) :: rest) =
      bridgeRun false (pre ++ rest) ∧
    ∀ q : String, BridgeOut.audioInput q ∉ bridgeRun false pre := by
  constructor
  · rw [bridgeRun_append_of_no_open pre _ h, bridgeRun_append_of_no_open pre rest h]
    simp [bridgeRun, bridgeStep]
  · exact fun q => no_audio_before_open pre h q

/-- C10 witness: with one early media frame before the open event, the
bridge's output is the same as if the early frame had never arrived
(only the post-open frame is forwarded). -/
theorem c10_witness :
    bridgeRun false ([BridgeIn.twilio (TwilioEvent.media "early")] ++
        BridgeIn.twilio (TwilioEvent.media "x") ::
          [BridgeIn.humeOpen, BridgeIn.twilio (TwilioEvent.media "late")]) =
      bridgeRun false ([BridgeIn.twilio (TwilioEvent.media "early")] ++
        [BridgeIn.humeOpen, BridgeIn.twilio (TwilioEvent.media "late")]) :=
  (c10_media_dropped_before_open [BridgeIn.twilio (TwilioEvent.media "early")]
    [BridgeIn.humeOpen, BridgeIn.twilio (TwilioEvent.media "late")] "x" (by decide)).1
